import Mathlib

/-!
Shallow embedding of dteslafanctl (src/main.py), a closed-loop GPU fan
controller: a telemetry drain feeding a hysteresis state machine that drives
an IPMI fan-control sink through a precomputed geometric fan curve.

Modelling conventions:
* Python strings are Lean `String`s; `str.split` / `str.strip` / `int(...)`
  are re-implemented character-by-character below so that everything reduces
  in the kernel.
* Python exceptions (IndexError from list indexing, ValueError from `int`)
  are `Except PyError`; an `Except.error` result models the interpreter
  aborting the decision loop with an uncaught exception.
* `numpy.geomspace` is modelled over `ℝ` (idealised float64):
  `start * (stop/start) ^ (i / (num-1))` with real exponentiation, which is
  exact at both endpoints just as numpy pins them exactly.
* Python `dict` insertion (`levels_dict[k] = v`) is an association list with
  update-in-place-or-append semantics (`dictInsert`), preserving insertion
  order like CPython dicts.
* Python `int(...)` applied to a float truncates toward zero (`pyTrunc`).
* Timestamps (`datetime.now()`) are integers; `total_seconds` comparisons
  become integer comparisons.
* The IPMI sink is an oracle: each tick input carries the success bit every
  potential `ipmitool` invocation of that tick would report.
-/

/-- Characters stripped by the Python `rdi.strip(' \n')` call in the drain. -/
def stripSet : List Char := [' ', '\n']

/-- Python `s.strip(' \n')`: drop characters of the set from both ends. -/
def pyStrip (s : String) : String :=
  String.mk (((s.data.dropWhile (fun c => c ∈ stripSet)).reverse.dropWhile
    (fun c => c ∈ stripSet)).reverse)

/-- Helper for `pySplitComma`: accumulates the current field (reversed). -/
def splitCommaAux : List Char → List Char → List (List Char)
  | [], acc => [acc.reverse]
  | c :: rest, acc =>
    if c = ',' then acc.reverse :: splitCommaAux rest []
    else splitCommaAux rest (c :: acc)

/-- Python `line.split(',')`: split on every comma, never collapsing. -/
def pySplitComma (s : String) : List String :=
  (splitCommaAux s.data []).map String.mk

/-- The cleaned fields of one telemetry line:
`[rdi.strip(' \n') for rdi in raw_data.split(',')]`. -/
def pyFields (line : String) : List String :=
  (pySplitComma line).map pyStrip

/-- Digit-string to number, `none` when empty or containing a non-digit. -/
def parseDigits (l : List Char) : Option ℕ :=
  if l = [] then none
  else if l.all Char.isDigit then
    some (l.foldl (fun n c => 10 * n + (c.toNat - 48)) 0)
  else none

/-- Python `int(s)` on an already-stripped string: optional sign then digits,
raising (here: `none`) on anything else. -/
def pyInt (s : String) : Option ℤ :=
  match s.data with
  | '-' :: rest => (parseDigits rest).map (fun n => -(n : ℤ))
  | '+' :: rest => (parseDigits rest).map (fun n => (n : ℤ))
  | l => (parseDigits l).map (fun n => (n : ℤ))

/-- The two Python exceptions the drain can raise. -/
inductive PyError : Type where
  | indexError : PyError
  | valueError : PyError
deriving DecidableEq

deriving instance DecidableEq for Except

/-- Python list indexing `l[i]`: IndexError when out of range. -/
def listGet (l : List String) (i : ℕ) : Except PyError String :=
  match l.get? i with
  | some s => Except.ok s
  | none => Except.error PyError.indexError

/-- Python `int(field)`: ValueError when the field is not an integer. -/
def parseIntField (s : String) : Except PyError ℤ :=
  match pyInt s with
  | some n => Except.ok n
  | none => Except.error PyError.valueError

/-- The per-tick aggregate: highest temperature, its utilization, GPU index
and GPU name (the `highest_*` / `previous_*` quadruples of the loop). -/
structure Agg : Type where
  temp : ℤ
  util : ℤ
  idx : ℤ
  name : String
deriving DecidableEq

/-- The initial value of the `highest_*` variables at each tick. -/
def zeroAgg : Agg := ⟨0, 0, 0, ""⟩

/-- One iteration of the drain loop body for one queue line, acting on the
pair (highest, previous).  Mirrors src/main.py lines 223-242 including the
exact evaluation (and hence exception) order. -/
def processLine (ignored : List String) (st : Agg × Agg) (line : String) :
    Except PyError (Agg × Agg) :=
  let clean := pyFields line
  if clean.headD "" ∈ ignored then Except.ok st
  else
    match listGet clean 2 with
    | Except.error e => Except.error e
    | Except.ok s2 =>
      match parseIntField s2 with
      | Except.error e => Except.error e
      | Except.ok t =>
        if st.1.temp < t then
          match listGet clean 0 with
          | Except.error e => Except.error e
          | Except.ok s0 =>
            match parseIntField s0 with
            | Except.error e => Except.error e
            | Except.ok i =>
              match listGet clean 1 with
              | Except.error e => Except.error e
              | Except.ok s1 =>
                match listGet clean 3 with
                | Except.error e => Except.error e
                | Except.ok s3 =>
                  match parseIntField s3 with
                  | Except.error e => Except.error e
                  | Except.ok u => Except.ok (⟨t, u, i, s1⟩, ⟨t, u, i, s1⟩)
        else Except.ok (st.1, st.1)

/-- The inner `while not raw_lines.empty()` loop over a drained batch. -/
def drainList (ignored : List String) : Agg × Agg → List String →
    Except PyError (Agg × Agg)
  | st, [] => Except.ok st
  | st, line :: rest =>
    match processLine ignored st line with
    | Except.error e => Except.error e
    | Except.ok st2 => drainList ignored st2 rest

/-- One full drain step of the decision loop (src/main.py lines 211-242):
sticky reuse of `previous_*` on an empty queue, otherwise fold the batch
starting from the zero aggregate.  Returns (highest, previous). -/
def drainTick (ignored : List String) (previous : Agg) (batch : List String) :
    Except PyError (Agg × Agg) :=
  if batch.isEmpty then Except.ok (previous, previous)
  else drainList ignored (zeroAgg, previous) batch

/-- Python `int(x)` on a number: truncation toward zero. -/
def pyTrunc {α : Type} [LinearOrderedRing α] [FloorRing α] (x : α) : ℤ :=
  if 0 ≤ x then ⌊x⌋ else ⌈x⌉

/-- `ipmi_set_static_fan_speed`'s speed selection (src/main.py lines 155-161):
first dict key `k` (in insertion order) with `temperature <= int(k)`, else the
value of the last dict entry; `none` only for an empty dict (where the Python
code would raise IndexError -- never reached, the built dict is non-empty). -/
def lookupSpeed {α : Type} [LinearOrderedRing α] [FloorRing α]
    (levels : List (α × α)) (temperature : ℤ) : Option α :=
  match levels.find? (fun q => decide (temperature ≤ pyTrunc q.1)) with
  | some q => some q.2
  | none => levels.getLast?.map Prod.snd

/-- CPython dict assignment `d[k] = v` on an insertion-ordered association
list: update the value in place when the key exists, else append. -/
def dictInsert {κ β : Type} [DecidableEq κ] (d : List (κ × β)) (k : κ) (v : β) :
    List (κ × β) :=
  if k ∈ d.map Prod.fst then d.map (fun q => if q.1 = k then (k, v) else q)
  else d ++ [(k, v)]

/-- The temperature breakpoints: `geomspace(start=activate, stop=maxTemp,
num=512)`, point `i` being `activate * (maxTemp/activate)^(i/511)`. -/
noncomputable def tempLevels (a m : ℤ) (i : ℕ) : ℝ :=
  (a : ℝ) * (((m : ℝ) / (a : ℝ)) ^ ((i : ℝ) / 511) : ℝ)

/-- The fan-speed values: `geomspace(start=minFan, stop=100.0, num=512)`. -/
noncomputable def fanLevels (f : ℤ) (i : ℕ) : ℝ :=
  (f : ℝ) * (((100 : ℝ) / (f : ℝ)) ^ ((i : ℝ) / 511) : ℝ)

/-- The 512 (temperature, speed) pairs in generation order. -/
noncomputable def levelsList (a m f : ℤ) : List (ℝ × ℝ) :=
  (List.range 512).map (fun i => (tempLevels a m i, fanLevels f i))

/-- `levels_dict` as built by the `while i < 512` loop (src/main.py lines
199-203): 512 dict assignments in index order. -/
noncomputable def buildLevels (a m f : ℤ) : List (ℝ × ℝ) :=
  (List.range 512).foldl
    (fun d i => dictInsert d (tempLevels a m i) (fanLevels f i)) []

/-- The runtime parameters consumed by the decision loop. -/
structure Params : Type where
  maxTemp : ℤ
  minFan : ℤ
  idleTarget : ℤ
  handoffInterval : ℤ
  idleUtil : ℤ
  activate : ℤ
deriving DecidableEq

/-- The defaults of `runtime_params` after the `activate = idle + 10`
fix-up (src/main.py lines 11-19 and 177-178). -/
def defaultParams : Params := ⟨80, 50, 45, 10, 0, 55⟩

/-- The state machine's memory: `manual_activated_dt` and
`manual_met_idle_temp_dt`. -/
structure CtlState : Type where
  activatedAt : Option ℤ
  idleAt : Option ℤ
deriving DecidableEq

/-- One IPMI invocation: `ipmi_toggle_fan_control(enable)` or
`ipmi_set_static_fan_speed` with the looked-up speed value. -/
inductive SinkCall (α : Type) : Type where
  | toggle (enableManual : Bool) : SinkCall α
  | setSpeed (value : Option α) : SinkCall α
deriving DecidableEq

/-- Result of one transition-evaluation pass (src/main.py lines 244-271):
the new control state, the sink calls issued this tick in order, and whether
`stop_nvidia_smi.set()` was called because a sink call failed. -/
structure TickOutcome (α : Type) : Type where
  ctl : CtlState
  calls : List (SinkCall α)
  stopRequested : Bool
deriving DecidableEq

/-- The transition chain and the speed-setting step of one tick, with the
sink results supplied as oracle bits.  Mirrors the if/elif chain exactly:
only one transition fires per tick; the handoff branch resets both
timestamps in memory regardless of the sink result. -/
def controlStep {α : Type} [LinearOrderedRing α] [FloorRing α]
    (levels : List (α × α)) (p : Params) (now : ℤ) (agg : Agg) (st : CtlState)
    (toggleOnOk toggleOffOk setOk : Bool) : TickOutcome α :=
  let s1 : CtlState × List (SinkCall α) × Bool :=
    if st.activatedAt = none ∧ p.activate ≤ agg.temp then
      (⟨some now, none⟩, [SinkCall.toggle true], !toggleOnOk)
    else if st.activatedAt ≠ none ∧ st.idleAt = none ∧ agg.temp ≤ p.idleTarget then
      (⟨st.activatedAt, some now⟩, [], false)
    else if st.idleAt ≠ none then
      if p.handoffInterval ≤ now - st.idleAt.getD 0 ∧ agg.util ≤ p.idleUtil then
        (⟨none, none⟩, [SinkCall.toggle false], !toggleOffOk)
      else (st, [], false)
    else (st, [], false)
  if s1.1.activatedAt ≠ none then
    ⟨s1.1, s1.2.1 ++ [SinkCall.setSpeed (lookupSpeed levels agg.temp)],
      s1.2.2 || !setOk⟩
  else ⟨s1.1, s1.2.1, s1.2.2⟩

/-- What the engine observes at one loop iteration: the `complete_shutdown`
flag at the loop head, the drained batch, the wall clock, and the success
bit of each IPMI call that might be issued this tick. -/
structure TickInput : Type where
  shutdown : Bool
  batch : List String
  now : ℤ
  toggleOnOk : Bool
  toggleOffOk : Bool
  setOk : Bool
deriving DecidableEq

/-- The decision engine's cross-tick state: the `previous_*` quadruple, the
two timestamps, and whether a failure already requested the stop. -/
structure EngineState : Type where
  prev : Agg
  ctl : CtlState
  stopRequested : Bool
deriving DecidableEq

/-- Engine state at loop entry (src/main.py lines 189-209). -/
def initialEngineState : EngineState := ⟨zeroAgg, ⟨none, none⟩, false⟩

/-- One full iteration of the `while not complete_shutdown` loop: drain, then
transitions plus speed set.  An `Except.error` is an uncaught Python
exception killing the process. -/
def engineTick {α : Type} [LinearOrderedRing α] [FloorRing α]
    (levels : List (α × α)) (p : Params) (ignored : List String)
    (st : EngineState) (inp : TickInput) :
    Except PyError (EngineState × List (SinkCall α)) :=
  match drainTick ignored st.prev inp.batch with
  | Except.error e => Except.error e
  | Except.ok (agg, prev2) =>
    let out := controlStep levels p inp.now agg st.ctl
      inp.toggleOnOk inp.toggleOffOk inp.setOk
    Except.ok (⟨prev2, out.ctl, st.stopRequested || out.stopRequested⟩, out.calls)

/-- Runs loop iterations over a finite observation list, stopping at the
first iteration that observes `complete_shutdown`.  Returns the concatenated
sink-call trace and either the final engine state or the uncaught
exception. -/
def runTicks {α : Type} [LinearOrderedRing α] [FloorRing α]
    (levels : List (α × α)) (p : Params) (ignored : List String) :
    EngineState → List TickInput → List (SinkCall α) × Except PyError EngineState
  | st, [] => ([], Except.ok st)
  | st, inp :: rest =>
    if inp.shutdown then ([], Except.ok st)
    else
      match engineTick levels p ignored st inp with
      | Except.error e => ([], Except.error e)
      | Except.ok (st2, calls) =>
        let next := runTicks levels p ignored st2 rest
        (calls ++ next.1, next.2)

/-- Observable outcome of a whole run: process exit status, the full ordered
IPMI call trace, and whether the process died of an uncaught exception. -/
structure RunResult (α : Type) : Type where
  exitCode : ℕ
  calls : List (SinkCall α)
  crashed : Bool
deriving DecidableEq

/-- The whole `__main__` skeleton (src/main.py lines 167-280): dependency
check (exit 1, nothing else, when a tool is missing), the decision loop, and
the terminal `ipmi_toggle_fan_control(False)` whose result decides exit 0/1.
An uncaught exception exits 1 without reaching the terminal hand-back. -/
def mainRun {α : Type} [LinearOrderedRing α] [FloorRing α]
    (levels : List (α × α)) (p : Params) (ignored : List String)
    (depsOk : Bool) (inputs : List TickInput) (finalReleaseOk : Bool) :
    RunResult α :=
  if depsOk then
    match runTicks levels p ignored initialEngineState inputs with
    | (calls, Except.error _) => ⟨1, calls, true⟩
    | (calls, Except.ok _) =>
      ⟨if finalReleaseOk then 0 else 1, calls ++ [SinkCall.toggle false], false⟩
  else ⟨1, [], false⟩

/-! ### Drain-layer lemmas -/

/-- A line whose first cleaned field is on the ignore list is skipped by the
`continue`, leaving both `highest_*` and `previous_*` untouched. -/
theorem processLine_ignored (ignored : List String) (st : Agg × Agg)
    (line : String) (h : (pyFields line).headD "" ∈ ignored) :
    processLine ignored st line = Except.ok st := by
  simp only [processLine]
  rw [if_pos h]

/-- Every successfully processed non-ignored line ends with
`previous_* = highest_*` (the unconditional copy at the loop tail). -/
theorem processLine_ok_snd (ignored : List String) (st st2 : Agg × Agg)
    (line : String) (hg : (pyFields line).headD "" ∉ ignored)
    (h : processLine ignored st line = Except.ok st2) : st2.2 = st2.1 := by
  simp only [processLine] at h
  rw [if_neg hg] at h
  repeat' split at h
  all_goals first
    | exact Except.noConfusion h
    | (cases h; rfl)

/-- A batch consisting only of ignored lines leaves the drain state
unchanged. -/
theorem drainList_all_ignored (ignored : List String) (batch : List String)
    (h : ∀ l ∈ batch, (pyFields l).headD "" ∈ ignored) :
    ∀ st : Agg × Agg, drainList ignored st batch = Except.ok st := by
  induction batch with
  | nil => intro st; rfl
  | cons x xs ih =>
    intro st
    have hx := h x (List.mem_cons_self x xs)
    simp only [drainList, processLine_ignored ignored st x hx]
    exact ih (fun l hl => h l (List.mem_cons_of_mem x hl)) st

/-- After a successful drain of a batch containing at least one non-ignored
line, the stored `previous_*` equals the tick's aggregate `highest_*`. -/
theorem drainList_ok_snd (ignored : List String) (batch : List String) :
    ∀ st st2 : Agg × Agg, drainList ignored st batch = Except.ok st2 →
    (∃ l ∈ batch, (pyFields l).headD "" ∉ ignored) → st2.2 = st2.1 := by
  induction batch with
  | nil =>
    intro st st2 _ hex
    rcases hex with ⟨l, hl, _⟩
    exact absurd hl (List.not_mem_nil l)
  | cons x xs ih =>
    intro st st2 h hex
    by_cases hx : (pyFields x).headD "" ∈ ignored
    · simp only [drainList, processLine_ignored ignored st x hx] at h
      rcases hex with ⟨l, hl, hnig⟩
      rcases List.mem_cons.mp hl with rfl | hl2
      · exact absurd hx hnig
      · exact ih st st2 h ⟨l, hl2, hnig⟩
    · simp only [drainList] at h
      split at h
      next => exact Except.noConfusion h
      next _ st1 hp =>
        by_cases hxs : ∃ l ∈ xs, (pyFields l).headD "" ∉ ignored
        · exact ih st1 st2 h hxs
        · have hall : ∀ l ∈ xs, (pyFields l).headD "" ∈ ignored := by
            intro l hl
            by_contra hc
            exact hxs ⟨l, hl, hc⟩
          rw [drainList_all_ignored ignored xs hall st1] at h
          rw [← Except.ok.inj h]
          exact processLine_ok_snd ignored st st1 x hx hp

/-- Removing an ignored line from anywhere in a batch does not change the
drain fold at all. -/
theorem drainList_skip_ignored (ignored : List String) (l1 l2 : List String)
    (x : String) (hx : (pyFields x).headD "" ∈ ignored) :
    ∀ st : Agg × Agg,
      drainList ignored st (l1 ++ x :: l2) = drainList ignored st (l1 ++ l2) := by
  induction l1 with
  | nil =>
    intro st
    simp only [List.nil_append, drainList, processLine_ignored ignored st x hx]
  | cons y ys ih =>
    intro st
    simp only [List.cons_append, drainList]
    cases hp : processLine ignored st y with
    | error e => rfl
    | ok st1 => exact ih st1

/-! ### Claims C3, C4, C9, C10 -/

/-- C3 counterexample: tick N-1 drains a non-empty batch whose only record is
ignored, so its aggregate is the zero aggregate while `previous_*` keeps the
older value; the empty tick N then reuses that older value, which differs
from tick N-1's aggregate.  This refutes the claim that an empty tick always
reproduces the immediately preceding tick's aggregate. -/
theorem sticky_after_all_ignored_batch_cex :
    drainTick ["1"] ⟨50, 10, 0, "A"⟩ ["1, B, 70, 5"] =
      Except.ok (zeroAgg, ⟨50, 10, 0, "A"⟩) ∧
    drainTick ["1"] ⟨50, 10, 0, "A"⟩ [] =
      Except.ok (⟨50, 10, 0, "A"⟩, ⟨50, 10, 0, "A"⟩) ∧
    (⟨50, 10, 0, "A"⟩ : Agg) ≠ zeroAgg := by decide

/-- C3 (amended): an empty tick reuses the stored `previous_*` values
unchanged, and those stored values equal the preceding tick's aggregate
whenever that tick's batch was empty or contained at least one non-ignored
record: in that case the empty tick N reproduces tick N-1's aggregate
exactly. -/
theorem sticky_empty_batch_reuses_previous (ignored : List String)
    (prev agg1 prev1 : Agg) (batch : List String)
    (h : drainTick ignored prev batch = Except.ok (agg1, prev1))
    (hgood : batch = [] ∨ ∃ l ∈ batch, (pyFields l).headD "" ∉ ignored) :
    prev1 = agg1 ∧ drainTick ignored prev1 [] = Except.ok (agg1, agg1) := by
  have hpe : prev1 = agg1 := by
    rcases hgood with rfl | hex
    · simp only [drainTick, List.isEmpty_nil, if_true] at h
      obtain ⟨h1, h2⟩ := Prod.mk.injEq .. ▸ Except.ok.inj h
      rw [← h1, ← h2]
    · have hne : batch ≠ [] := by
        rcases hex with ⟨l, hl, _⟩
        intro hb
        subst hb
        exact absurd hl (List.not_mem_nil l)
      rw [drainTick, if_neg (by simp [hne])] at h
      exact drainList_ok_snd ignored batch (zeroAgg, prev) (agg1, prev1) h hex
  subst hpe
  exact ⟨rfl, rfl⟩

/-- C3 witness: a concrete non-empty tick followed by an empty tick where the
amended sticky property holds. -/
theorem sticky_empty_batch_reuses_previous_witness :
    (⟨50, 10, 0, "A"⟩ : Agg) = ⟨50, 10, 0, "A"⟩ ∧
    drainTick [] ⟨50, 10, 0, "A"⟩ [] =
      Except.ok (⟨50, 10, 0, "A"⟩, ⟨50, 10, 0, "A"⟩) :=
  sticky_empty_batch_reuses_previous [] zeroAgg ⟨50, 10, 0, "A"⟩
    ⟨50, 10, 0, "A"⟩ ["0, A, 50, 10"] (by decide) (Or.inr (by decide))

/-- C4 counterexample: a batch whose only record is ignored yields the zero
aggregate, whereas the same tick without that record (empty batch) would have
reused the previous aggregate -- so delivering the ignored record did change
the tick's AggregateState, refuting the unconditional no-influence claim. -/
theorem ignored_only_batch_changes_aggregate_cex :
    drainTick ["0"] ⟨50, 10, 1, "A"⟩ ["0, B, 90, 10"] =
      Except.ok (zeroAgg, ⟨50, 10, 1, "A"⟩) ∧
    drainTick ["0"] ⟨50, 10, 1, "A"⟩ [] =
      Except.ok (⟨50, 10, 1, "A"⟩, ⟨50, 10, 1, "A"⟩) ∧
    zeroAgg ≠ (⟨50, 10, 1, "A"⟩ : Agg) := by decide

/-- C4 (amended): as long as the rest of the batch is non-empty, a record
whose GPU index is ignored never influences the tick's drain result -- the
whole tick computes exactly as if the record had not been delivered, even if
it reports the highest temperature. -/
theorem ignored_record_no_influence_when_batch_remains (ignored : List String)
    (prev : Agg) (l1 l2 : List String) (x : String)
    (hx : (pyFields x).headD "" ∈ ignored) (hne : l1 ++ l2 ≠ []) :
    drainTick ignored prev (l1 ++ x :: l2) = drainTick ignored prev (l1 ++ l2) := by
  have hne2 : l1 ++ x :: l2 ≠ [] := by cases l1 <;> simp
  rw [drainTick, drainTick, if_neg (by simp [hne2]), if_neg (by simp [hne])]
  exact drainList_skip_ignored ignored l1 l2 x hx (zeroAgg, prev)

/-- C4 witness: dropping a concrete hottest-but-ignored record from a
two-record batch leaves the drain result literally identical. -/
theorem ignored_record_no_influence_witness :
    drainTick ["0"] zeroAgg ["1, B, 40, 2", "0, A, 90, 9"] =
      drainTick ["0"] zeroAgg ["1, B, 40, 2"] :=
  ignored_record_no_influence_when_batch_remains ["0"] zeroAgg
    ["1, B, 40, 2"] [] "0, A, 90, 9" (by decide) (by decide)

/-- C9 counterexample: a single malformed line (one field, so
`clean_data[2]` raises IndexError) makes the drain raise instead of skipping,
and the whole process run crashes with exit status 1, never reaching the
terminal hand-back -- the loop does not continue. -/
theorem malformed_line_crashes_drain_cex :
    drainTick [] zeroAgg ["garbage\n"] = Except.error PyError.indexError ∧
    mainRun ([] : List (ℤ × ℤ)) defaultParams [] true
      [⟨false, ["garbage\n"], 0, true, true, true⟩] true = ⟨1, [], true⟩ := by
  decide

/-- C9 (amended): every non-ignored telemetry line with fewer than three
comma-separated fields raises IndexError out of the drain (killing the loop),
and a line with a non-integer temperature field likewise raises ValueError;
malformed records are never skipped. -/
theorem malformed_line_raises_error (ignored : List String) (st : Agg × Agg)
    (line : String) (hshort : (pyFields line).length < 3)
    (hnig : (pyFields line).headD "" ∉ ignored) :
    processLine ignored st line = Except.error PyError.indexError ∧
    processLine [] st "0, A, hot, 5" = Except.error PyError.valueError := by
  constructor
  · simp only [processLine]
    rw [if_neg hnig]
    have hg : listGet (pyFields line) 2 = Except.error PyError.indexError := by
      unfold listGet
      have hn : (pyFields line).get? 2 = none := by
        rw [List.get?_eq_none]
        omega
      rw [hn]
    rw [hg]
  · rfl

/-- C9 witness: a concrete two-field line raising IndexError. -/
theorem malformed_line_raises_error_witness :
    processLine [] (zeroAgg, zeroAgg) "a, b" = Except.error PyError.indexError ∧
    processLine [] (zeroAgg, zeroAgg) "0, A, hot, 5" =
      Except.error PyError.valueError :=
  malformed_line_raises_error [] (zeroAgg, zeroAgg) "a, b" (by decide) (by decide)

/-- C10 counterexample: a non-empty batch whose single non-ignored record has
temperature 0 produces the zero aggregate AND overwrites the stored
`previous_*` values with the zero aggregate -- they are not left unchanged as
the claim asserts for the no-temperature-exceeds-0 case. -/
theorem zero_temp_record_overwrites_previous_cex :
    drainTick [] ⟨50, 10, 1, "A"⟩ ["0, B, 0, 5"] = Except.ok (zeroAgg, zeroAgg) ∧
    zeroAgg ≠ (⟨50, 10, 1, "A"⟩ : Agg) := by decide

/-- C10 (amended): a non-empty but entirely ignored batch yields the zero
aggregate while leaving the stored previous values untouched (sticky
semantics apply only to a completely empty queue); by contrast a non-ignored
record with temperature 0 also yields the zero aggregate but overwrites the
stored previous values with it. -/
theorem all_ignored_batch_zero_aggregate (ignored : List String) (prev : Agg)
    (batch : List String) (hne : batch ≠ [])
    (hall : ∀ l ∈ batch, (pyFields l).headD "" ∈ ignored) :
    drainTick ignored prev batch = Except.ok (zeroAgg, prev) ∧
    drainTick [] prev ["0, B, 0, 5"] = Except.ok (zeroAgg, zeroAgg) := by
  constructor
  · rw [drainTick, if_neg (by simp [hne])]
    exact drainList_all_ignored ignored batch hall (zeroAgg, prev)
  · rfl

/-- C10 witness: a concrete all-ignored batch with a non-zero stored
previous value. -/
theorem all_ignored_batch_zero_aggregate_witness :
    drainTick ["0"] ⟨50, 10, 1, "A"⟩ ["0, x, 99, 9"] =
      Except.ok (zeroAgg, ⟨50, 10, 1, "A"⟩) ∧
    drainTick [] (⟨50, 10, 1, "A"⟩ : Agg) ["0, B, 0, 5"] =
      Except.ok (zeroAgg, zeroAgg) :=
  all_ignored_batch_zero_aggregate ["0"] ⟨50, 10, 1, "A"⟩ ["0, x, 99, 9"]
    (by decide) (by decide)

/-! ### Claims C6, C7, C8 -/

/-- C6: once `manual_met_idle_temp_dt` is set while under manual control, a
tick whose highest temperature has risen back above the idle target (and
whose interval-plus-utilization handoff check fails) leaves both timestamps
exactly as they were -- the idle timestamp is not re-armed; a later tick
whose wall clock satisfies the interval check against the original stale
timestamp (with idle utilization) then fires the handoff using it. -/
theorem idle_timestamp_not_cleared_on_temp_rise {α : Type}
    [LinearOrderedRing α] [FloorRing α] (levels : List (α × α)) (p : Params)
    (a t now1 now2 : ℤ) (agg1 agg2 : Agg) (o1 o2 o3 o4 o5 o6 : Bool)
    (hrise : p.idleTarget < agg1.temp)
    (hnotReady : ¬(p.handoffInterval ≤ now1 - t ∧ agg1.util ≤ p.idleUtil))
    (hlater : p.handoffInterval ≤ now2 - t)
    (hutil : agg2.util ≤ p.idleUtil) :
    (controlStep levels p now1 agg1 ⟨some a, some t⟩ o1 o2 o3).ctl =
      ⟨some a, some t⟩ ∧
    (controlStep levels p now2 agg2 ⟨some a, some t⟩ o4 o5 o6).ctl =
      ⟨none, none⟩ ∧
    SinkCall.toggle false ∈
      (controlStep levels p now2 agg2 ⟨some a, some t⟩ o4 o5 o6).calls := by
  unfold controlStep
  simp [hnotReady, hlater, hutil]

/-- C6 witness: a concrete pending state whose temperature bounces back above
the idle target without clearing the stale idle timestamp, followed by a
handoff that succeeds on that stale timestamp. -/
theorem idle_timestamp_not_cleared_witness :
    (controlStep [((60:ℤ), 50)] defaultParams 205 ⟨50, 5, 0, "A"⟩
      ⟨some 100, some 200⟩ true true true).ctl = ⟨some 100, some 200⟩ ∧
    (controlStep [((60:ℤ), 50)] defaultParams 215 ⟨44, 0, 0, "A"⟩
      ⟨some 100, some 200⟩ true true true).ctl = ⟨none, none⟩ ∧
    SinkCall.toggle false ∈
      (controlStep [((60:ℤ), 50)] defaultParams 215 ⟨44, 0, 0, "A"⟩
        ⟨some 100, some 200⟩ true true true).calls :=
  idle_timestamp_not_cleared_on_temp_rise [((60:ℤ), 50)] defaultParams
    100 200 205 215 ⟨50, 5, 0, "A"⟩ ⟨44, 0, 0, "A"⟩ true true true true true true
    (by decide) (by decide) (by decide) (by decide)

/-- C7: when the handoff branch fires, the local state is reset to Automatic
(both timestamps cleared) no matter what the release call returned, and a
failed release (b = false) additionally requests the global shutdown. -/
theorem handoff_resets_state_despite_sink_failure {α : Type}
    [LinearOrderedRing α] [FloorRing α] (levels : List (α × α)) (p : Params)
    (a t now : ℤ) (agg : Agg) (o1 o3 b : Bool)
    (hready : p.handoffInterval ≤ now - t) (hutil : agg.util ≤ p.idleUtil) :
    (controlStep levels p now agg ⟨some a, some t⟩ o1 b o3).ctl = ⟨none, none⟩ ∧
    (controlStep levels p now agg ⟨some a, some t⟩ o1 b o3).stopRequested = !b ∧
    SinkCall.toggle false ∈
      (controlStep levels p now agg ⟨some a, some t⟩ o1 b o3).calls := by
  unfold controlStep
  simp [hready, hutil]

/-- C7 witness: a concrete handoff tick with a failing release call: the
state still resets to Automatic and shutdown is requested. -/
theorem handoff_resets_state_witness :
    (controlStep [((60:ℤ), 50)] defaultParams 215 ⟨44, 0, 0, "A"⟩
      ⟨some 100, some 200⟩ true false true).ctl = ⟨none, none⟩ ∧
    (controlStep [((60:ℤ), 50)] defaultParams 215 ⟨44, 0, 0, "A"⟩
      ⟨some 100, some 200⟩ true false true).stopRequested = !false ∧
    SinkCall.toggle false ∈
      (controlStep [((60:ℤ), 50)] defaultParams 215 ⟨44, 0, 0, "A"⟩
        ⟨some 100, some 200⟩ true false true).calls :=
  handoff_resets_state_despite_sink_failure [((60:ℤ), 50)] defaultParams
    100 200 215 ⟨44, 0, 0, "A"⟩ true true false (by decide) (by decide)

/-- C8: with a missing dependency the process exits 1 having issued no IPMI
call and run no tick; otherwise, whenever the loop terminates by observing
the shutdown flag (no crash), exactly one final release-manual-control call
is appended after the loop's trace regardless of the control state reached,
and the exit status is 0 when that final release succeeds, 1 when it
fails. -/
theorem terminal_single_release_and_exit_code {α : Type}
    [LinearOrderedRing α] [FloorRing α] (levels : List (α × α)) (p : Params)
    (ignored : List String) (inputs : List TickInput) (finalOk : Bool)
    (calls : List (SinkCall α)) (st : EngineState)
    (hok : runTicks levels p ignored initialEngineState inputs =
      (calls, Except.ok st)) :
    mainRun levels p ignored false inputs finalOk = ⟨1, [], false⟩ ∧
    mainRun levels p ignored true inputs finalOk =
      ⟨if finalOk then 0 else 1, calls ++ [SinkCall.toggle false], false⟩ := by
  constructor
  · rfl
  · unfold mainRun
    rw [if_pos rfl, hok]

/-- C8 witness: a concrete run that takes manual control on its single tick,
then observes shutdown; the trace ends with exactly the one final release
and the exit code is 0 because it succeeded. -/
theorem terminal_single_release_witness :
    mainRun [((60:ℤ), 50), (80, 100)] defaultParams [] false
      [⟨false, ["0, A, 70, 5"], 100, true, true, true⟩] true = ⟨1, [], false⟩ ∧
    mainRun [((60:ℤ), 50), (80, 100)] defaultParams [] true
      [⟨false, ["0, A, 70, 5"], 100, true, true, true⟩] true =
      ⟨if true then 0 else 1,
        [SinkCall.toggle true, SinkCall.setSpeed (some 100)] ++
          [SinkCall.toggle false], false⟩ :=
  terminal_single_release_and_exit_code [((60:ℤ), 50), (80, 100)]
    defaultParams [] [⟨false, ["0, A, 70, 5"], 100, true, true, true⟩] true
    [SinkCall.toggle true, SinkCall.setSpeed (some 100)]
    ⟨⟨70, 5, 0, "A"⟩, ⟨some 100, none⟩, false⟩ (by decide)

/-! ### Fan-curve lemmas -/

/-- On nonnegative reals the Python truncation is the floor. -/
theorem pyTrunc_nonneg_eq_floor (x : ℝ) (hx : 0 ≤ x) : pyTrunc x = ⌊x⌋ := by
  unfold pyTrunc
  exact if_pos hx

/-- For an integer threshold and a nonnegative key, the code's
`temperature <= int(k)` test is exactly `(T : ℝ) ≤ k`. -/
theorem pyTrunc_le_iff (T : ℤ) (x : ℝ) (hx : 0 ≤ x) :
    T ≤ pyTrunc x ↔ (T : ℝ) ≤ x := by
  rw [pyTrunc_nonneg_eq_floor x hx]
  exact Int.le_floor

/-- The first geomspace point is exactly the start value. -/
theorem tempLevels_zero (a m : ℤ) : tempLevels a m 0 = (a : ℝ) := by
  unfold tempLevels
  simp [Real.rpow_zero]

/-- The 512th geomspace point is exactly the stop value. -/
theorem tempLevels_last (a m : ℤ) (ha : (a : ℝ) ≠ 0) :
    tempLevels a m 511 = (m : ℝ) := by
  unfold tempLevels
  have h1 : ((511 : ℕ) : ℝ) / 511 = 1 := by norm_num
  rw [h1, Real.rpow_one]
  field_simp

/-- Geomspace points are positive for positive endpoints. -/
theorem tempLevels_pos (a m : ℤ) (ha : 0 < (a : ℝ)) (hm : 0 < (m : ℝ))
    (i : ℕ) : 0 < tempLevels a m i := by
  unfold tempLevels
  exact mul_pos ha (Real.rpow_pos_of_pos (div_pos hm ha) _)

/-- Geomspace is strictly increasing when start < stop (both positive). -/
theorem tempLevels_strictMono (a m : ℤ) (ha : 0 < (a : ℝ))
    (ham : (a : ℝ) < (m : ℝ)) {i j : ℕ} (hij : i < j) :
    tempLevels a m i < tempLevels a m j := by
  unfold tempLevels
  have hr : 1 < (m : ℝ) / (a : ℝ) := (one_lt_div ha).mpr ham
  have he : ((i : ℕ) : ℝ) / 511 < ((j : ℕ) : ℝ) / 511 := by gcongr
  exact mul_lt_mul_of_pos_left ((Real.rpow_lt_rpow_left_iff hr).mpr he) ha

/-- Geomspace is strictly decreasing when stop < start (both positive). -/
theorem tempLevels_strictAnti (a m : ℤ) (hm : 0 < (m : ℝ))
    (hma : (m : ℝ) < (a : ℝ)) {i j : ℕ} (hij : i < j) :
    tempLevels a m j < tempLevels a m i := by
  unfold tempLevels
  have ha : 0 < (a : ℝ) := lt_trans hm hma
  have hr0 : 0 < (m : ℝ) / (a : ℝ) := div_pos hm ha
  have hr1 : (m : ℝ) / (a : ℝ) < 1 := (div_lt_one ha).mpr hma
  have he : ((i : ℕ) : ℝ) / 511 < ((j : ℕ) : ℝ) / 511 := by gcongr
  exact mul_lt_mul_of_pos_left
    ((Real.rpow_lt_rpow_left_iff_of_base_lt_one hr0 hr1).mpr he) ha

/-- The speed axis is the same geomspace shape with endpoints (minFan, 100). -/
theorem fanLevels_eq (f : ℤ) (i : ℕ) : fanLevels f i = tempLevels f 100 i := by
  unfold fanLevels tempLevels
  norm_num

/-- The first fan level is exactly the minimum fan speed. -/
theorem fanLevels_zero (f : ℤ) : fanLevels f 0 = (f : ℝ) := by
  unfold fanLevels
  simp [Real.rpow_zero]

/-- The last fan level is exactly 100. -/
theorem fanLevels_last (f : ℤ) (hf : (f : ℝ) ≠ 0) : fanLevels f 511 = 100 := by
  unfold fanLevels
  have h1 : ((511 : ℕ) : ℝ) / 511 = 1 := by norm_num
  rw [h1, Real.rpow_one]
  field_simp

/-- Folding dict insertions over a key sequence with pairwise-distinct keys
just appends: the dict contents are the pairs in generation order. -/
theorem foldl_dictInsert_eq {κ β : Type} [DecidableEq κ] (g : ℕ → κ × β) :
    ∀ n : ℕ, (∀ i j, i < n → j < n → (g i).1 = (g j).1 → i = j) →
      (List.range n).foldl (fun d i => dictInsert d (g i).1 (g i).2) [] =
        (List.range n).map g := by
  intro n
  induction n with
  | zero => intro _; rfl
  | succ k ih =>
    intro hinj
    rw [List.range_succ, List.foldl_append, List.map_append,
      ih (fun i j hi hj he =>
        hinj i j (Nat.lt_succ_of_lt hi) (Nat.lt_succ_of_lt hj) he)]
    simp only [List.foldl_cons, List.foldl_nil, List.map_cons, List.map_nil]
    rw [dictInsert, if_neg]
    intro hmem
    rw [List.map_map] at hmem
    rcases List.mem_map.mp hmem with ⟨i, hi, he⟩
    have hik : i = k :=
      hinj i k (Nat.lt_succ_of_lt (List.mem_range.mp hi))
        (Nat.lt_succ_self k) he
    have hlt : i < k := List.mem_range.mp hi
    omega

/-- With a strictly increasing temperature axis the built dict is exactly
the 512 generated pairs. -/
theorem buildLevels_eq_of_mono (a m f : ℤ) (ha : 0 < a) (ham : a < m) :
    buildLevels a m f = levelsList a m f := by
  have har : 0 < (a : ℝ) := by exact_mod_cast ha
  have hamr : (a : ℝ) < (m : ℝ) := by exact_mod_cast ham
  unfold buildLevels levelsList
  exact foldl_dictInsert_eq (fun i => (tempLevels a m i, fanLevels f i)) 512
    (fun i j _ _ he => by
      rcases lt_trichotomy i j with h | h | h
      · exact absurd he (ne_of_lt (tempLevels_strictMono a m har hamr h))
      · exact h
      · exact absurd he.symm (ne_of_lt (tempLevels_strictMono a m har hamr h)))

/-- With a strictly decreasing temperature axis (inverted range) the built
dict is likewise the 512 generated pairs. -/
theorem buildLevels_eq_of_anti (a m f : ℤ) (hm : 0 < m) (hma : m < a) :
    buildLevels a m f = levelsList a m f := by
  have hmr : 0 < (m : ℝ) := by exact_mod_cast hm
  have hmar : (m : ℝ) < (a : ℝ) := by exact_mod_cast hma
  unfold buildLevels levelsList
  exact foldl_dictInsert_eq (fun i => (tempLevels a m i, fanLevels f i)) 512
    (fun i j _ _ he => by
      rcases lt_trichotomy i j with h | h | h
      · exact absurd he.symm (ne_of_lt (tempLevels_strictAnti a m hmr hmar h))
      · exact h
      · exact absurd he (ne_of_lt (tempLevels_strictAnti a m hmr hmar h)))

/-- The generated pair list has all 512 points. -/
theorem levelsList_length (a m f : ℤ) : (levelsList a m f).length = 512 := by
  unfold levelsList
  rw [List.length_map, List.length_range]

/-- The generated pair list is never empty. -/
theorem levelsList_ne_nil (a m f : ℤ) : levelsList a m f ≠ [] := by
  intro h
  have := levelsList_length a m f
  rw [h] at this
  exact absurd this (by norm_num)

/-- Both axes of the generated curve are strictly increasing for a valid
configuration. -/
theorem levelsList_pairwise (a m f : ℤ) (ha : 0 < a) (ham : a < m)
    (hf : 0 < f) (hf1 : f < 100) :
    (levelsList a m f).Pairwise (fun x y => x.1 < y.1 ∧ x.2 < y.2) := by
  have har : 0 < (a : ℝ) := by exact_mod_cast ha
  have hamr : (a : ℝ) < (m : ℝ) := by exact_mod_cast ham
  have hfr : 0 < (f : ℝ) := by exact_mod_cast hf
  have hf1r : (f : ℝ) < ((100 : ℤ) : ℝ) := by exact_mod_cast hf1
  unfold levelsList
  refine List.Pairwise.map _ ?_ (List.pairwise_lt_range 512)
  intro i j hij
  refine ⟨tempLevels_strictMono a m har hamr hij, ?_⟩
  rw [fanLevels_eq, fanLevels_eq]
  exact tempLevels_strictMono f 100 hfr hf1r hij

/-- The last generated pair. -/
theorem levelsList_getLastq (a m f : ℤ) :
    (levelsList a m f).getLast? =
      some (tempLevels a m 511, fanLevels f 511) := by
  unfold levelsList
  have h512 : (512 : ℕ) = 511 + 1 := rfl
  rw [h512, List.range_succ, List.map_append, List.map_cons, List.map_nil]
  rw [List.getLast?_concat]

/-- `find?` skips a prefix on which the predicate fails everywhere. -/
theorem find?_append_none {γ : Type} (p : γ → Bool) (l1 l2 : List γ)
    (h : l1.find? p = none) : (l1 ++ l2).find? p = l2.find? p := by
  induction l1 with
  | nil => rfl
  | cons x xs ih =>
    cases hpx : p x with
    | true =>
      rw [List.find?_cons_of_pos _ hpx] at h
      exact Option.noConfusion h
    | false =>
      have hnx : ¬p x = true := by simp [hpx]
      rw [List.find?_cons_of_neg _ hnx] at h
      rw [List.cons_append, List.find?_cons_of_neg _ hnx]
      exact ih h

/-- Full characterisation of the speed selection on a sorted non-empty table
with nonnegative keys: it always returns a value, never above the last
speed; when some breakpoint is at least the queried temperature it returns
the speed of the smallest such breakpoint, otherwise the last speed. -/
theorem lookupSpeed_sorted (T : ℤ) :
    ∀ (levels : List (ℝ × ℝ)) (hne : levels ≠ []),
      (∀ q ∈ levels, (0 : ℝ) ≤ q.1) →
      levels.Pairwise (fun x y => x.1 ≤ y.1) →
      levels.Pairwise (fun x y => x.2 ≤ y.2) →
      ∃ s, lookupSpeed levels T = some s ∧
        s ≤ (levels.getLast hne).2 ∧
        (∀ q ∈ levels, (T : ℝ) ≤ q.1 →
          ∃ r ∈ levels, (T : ℝ) ≤ r.1 ∧
            (∀ w ∈ levels, (T : ℝ) ≤ w.1 → r.1 ≤ w.1) ∧ s = r.2) ∧
        ((∀ q ∈ levels, q.1 < (T : ℝ)) → s = (levels.getLast hne).2) := by
  intro levels
  induction levels with
  | nil => intro hne; exact absurd rfl hne
  | cons p rest ih =>
    intro hne hnn hk hs
    have hp0 : (0 : ℝ) ≤ p.1 := hnn p (List.mem_cons_self p rest)
    by_cases hTp : (T : ℝ) ≤ p.1
    · have hlook : lookupSpeed (p :: rest) T = some p.2 := by
        unfold lookupSpeed
        rw [List.find?_cons_of_pos]
        simp only [decide_eq_true_eq]
        exact (pyTrunc_le_iff T p.1 hp0).mpr hTp
      refine ⟨p.2, hlook, ?_, ?_, ?_⟩
      · cases rest with
        | nil => exact le_refl _
        | cons r rs =>
          rw [List.getLast_cons (List.cons_ne_nil r rs)]
          exact (List.pairwise_cons.mp hs).1 _ (List.getLast_mem _)
      · intro q hq hTq
        refine ⟨p, List.mem_cons_self p rest, hTp, ?_, rfl⟩
        intro w hw hTw
        rcases List.mem_cons.mp hw with rfl | hw2
        · exact le_refl _
        · exact (List.pairwise_cons.mp hk).1 w hw2
      · intro hall
        exact absurd hTp (not_le.mpr (hall p (List.mem_cons_self p rest)))
    · cases rest with
      | nil =>
        have hlook : lookupSpeed [p] T = some p.2 := by
          unfold lookupSpeed
          rw [List.find?_cons_of_neg]
          · rfl
          · simp only [decide_eq_true_eq]
            intro hc
            exact hTp ((pyTrunc_le_iff T p.1 hp0).mp hc)
        refine ⟨p.2, hlook, le_refl _, ?_, fun _ => rfl⟩
        intro q hq hTq
        rcases List.mem_cons.mp hq with rfl | h2
        · exact absurd hTq hTp
        · exact absurd h2 (List.not_mem_nil q)
      | cons r rs =>
        have hne2 : r :: rs ≠ [] := List.cons_ne_nil r rs
        obtain ⟨s, hlook, hbound, hmin, hlast⟩ :=
          ih hne2 (fun q hq => hnn q (List.mem_cons_of_mem p hq))
            hk.of_cons hs.of_cons
        have hstep : lookupSpeed (p :: r :: rs) T = lookupSpeed (r :: rs) T := by
          unfold lookupSpeed
          rw [List.find?_cons_of_neg]
          · cases hfind : (r :: rs).find? (fun q => decide (T ≤ pyTrunc q.1)) with
            | some q => rfl
            | none => rw [List.getLast?_cons_cons]
          · simp only [decide_eq_true_eq]
            intro hc
            exact hTp ((pyTrunc_le_iff T p.1 hp0).mp hc)
        have hgl : (p :: r :: rs).getLast hne = (r :: rs).getLast hne2 :=
          List.getLast_cons hne2
        refine ⟨s, hstep.trans hlook, ?_, ?_, ?_⟩
        · rw [hgl]
          exact hbound
        · intro q hq hTq
          rcases List.mem_cons.mp hq with rfl | h2
          · exact absurd hTq hTp
          · obtain ⟨r0, hr0mem, hr0T, hr0min, hseq⟩ := hmin q h2 hTq
            refine ⟨r0, List.mem_cons_of_mem p hr0mem, hr0T, ?_, hseq⟩
            intro w hw hTw
            rcases List.mem_cons.mp hw with rfl | hw2
            · exact absurd hTw hTp
            · exact hr0min w hw2 hTw
        · intro hall
          rw [hgl]
          exact hlast (fun q hq => hall q (List.mem_cons_of_mem p hq))

/-- Looking up the activation temperature hits the first breakpoint and
returns the first fan level. -/
theorem lookupSpeed_levelsList_activate (a m f : ℤ) (ha : 0 < a) :
    lookupSpeed (levelsList a m f) a = some (fanLevels f 0) := by
  unfold levelsList
  have h512 : (512 : ℕ) = 511 + 1 := rfl
  rw [h512, List.range_succ_eq_map, List.map_cons]
  unfold lookupSpeed
  rw [List.find?_cons_of_pos]
  simp only [decide_eq_true_eq]
  rw [tempLevels_zero a m, pyTrunc_nonneg_eq_floor _ (by exact_mod_cast ha.le),
    Int.floor_intCast]

/-- Looking up the maximum temperature skips the first 511 breakpoints (all
strictly below the threshold) and returns the last fan level. -/
theorem lookupSpeed_levelsList_max (a m f : ℤ) (ha : 0 < a) (ham : a < m) :
    lookupSpeed (levelsList a m f) m = some (fanLevels f 511) := by
  have har : 0 < (a : ℝ) := by exact_mod_cast ha
  have hamr : (a : ℝ) < (m : ℝ) := by exact_mod_cast ham
  have hmr : 0 < (m : ℝ) := lt_trans har hamr
  unfold levelsList
  have h512 : (512 : ℕ) = 511 + 1 := rfl
  rw [h512, List.range_succ, List.map_append, List.map_cons, List.map_nil]
  unfold lookupSpeed
  have hnone : (List.map (fun i => (tempLevels a m i, fanLevels f i))
      (List.range 511)).find? (fun q => decide (m ≤ pyTrunc q.1)) = none := by
    rw [List.find?_eq_none]
    intro q hq
    rcases List.mem_map.mp hq with ⟨i, hi, rfl⟩
    have hi511 : i < 511 := List.mem_range.mp hi
    have hlt : tempLevels a m i < (m : ℝ) := by
      have h2 := tempLevels_strictMono a m har hamr hi511
      rwa [tempLevels_last a m (ne_of_gt har)] at h2
    have h0 : (0 : ℝ) ≤ tempLevels a m i := (tempLevels_pos a m har hmr i).le
    simp only [decide_eq_true_eq]
    rw [pyTrunc_nonneg_eq_floor _ h0]
    intro hle
    exact absurd (Int.le_floor.mp hle) (not_le.mpr hlt)
  rw [find?_append_none _ _ _ hnone, List.find?_cons_of_pos]
  simp only [decide_eq_true_eq]
  rw [tempLevels_last a m (ne_of_gt har),
    pyTrunc_nonneg_eq_floor _ hmr.le, Int.floor_intCast]

/-! ### Claims C1, C5, C2 -/

/-- C1: for every integer temperature, the lookup over the constructed
breakpoint table always returns a speed, never exceeding the highest defined
speed (100); when some breakpoint is at least the queried temperature the
returned speed is the one paired with the smallest such breakpoint, and when
the temperature exceeds every breakpoint it returns the last (highest)
breakpoint's speed, 100. -/
theorem fanCurve_lookup_spec (a m f T : ℤ) (ha : 0 < a) (ham : a < m)
    (hf : 0 < f) (hf1 : f < 100) :
    ∃ s, lookupSpeed (buildLevels a m f) T = some s ∧ s ≤ (100 : ℝ) ∧
      ((∃ q ∈ buildLevels a m f, (T : ℝ) ≤ q.1) →
        ∃ r ∈ buildLevels a m f, (T : ℝ) ≤ r.1 ∧
          (∀ w ∈ buildLevels a m f, (T : ℝ) ≤ w.1 → r.1 ≤ w.1) ∧ s = r.2) ∧
      ((∀ q ∈ buildLevels a m f, q.1 < (T : ℝ)) → s = 100) := by
  have har : 0 < (a : ℝ) := by exact_mod_cast ha
  have hamr : (a : ℝ) < (m : ℝ) := by exact_mod_cast ham
  have hmr : 0 < (m : ℝ) := lt_trans har hamr
  have hfr : (f : ℝ) ≠ 0 := ne_of_gt (by exact_mod_cast hf)
  rw [buildLevels_eq_of_mono a m f ha ham]
  have hne := levelsList_ne_nil a m f
  have hnn : ∀ q ∈ levelsList a m f, (0 : ℝ) ≤ q.1 := by
    intro q hq
    unfold levelsList at hq
    rcases List.mem_map.mp hq with ⟨i, _, rfl⟩
    exact (tempLevels_pos a m har hmr i).le
  have hpw := levelsList_pairwise a m f ha ham hf hf1
  have hk : (levelsList a m f).Pairwise (fun x y => x.1 ≤ y.1) :=
    hpw.imp (fun h => le_of_lt h.1)
  have hsp : (levelsList a m f).Pairwise (fun x y => x.2 ≤ y.2) :=
    hpw.imp (fun h => le_of_lt h.2)
  obtain ⟨s, h1, h2, h3, h4⟩ :=
    lookupSpeed_sorted T (levelsList a m f) hne hnn hk hsp
  have hq := List.getLast?_eq_getLast (levelsList a m f) hne
  rw [levelsList_getLastq a m f] at hq
  have h5 : (levelsList a m f).getLast hne =
      (tempLevels a m 511, fanLevels f 511) := (Option.some.inj hq).symm
  have hgl : ((levelsList a m f).getLast hne).2 = 100 := by
    rw [h5]
    exact fanLevels_last f hfr
  refine ⟨s, h1, ?_, ?_, ?_⟩
  · rw [← hgl]
    exact h2
  · intro hex
    rcases hex with ⟨q, hq2, hTq⟩
    exact h3 q hq2 hTq
  · intro hall
    rw [← hgl]
    exact h4 hall

/-- C1 witness: the defaults (activate 55, max 80, min fan 50) at
temperature 60. -/
theorem fanCurve_lookup_spec_witness :
    ∃ s, lookupSpeed (buildLevels 55 80 50) 60 = some s ∧ s ≤ (100 : ℝ) ∧
      ((∃ q ∈ buildLevels 55 80 50, ((60 : ℤ) : ℝ) ≤ q.1) →
        ∃ r ∈ buildLevels 55 80 50, ((60 : ℤ) : ℝ) ≤ r.1 ∧
          (∀ w ∈ buildLevels 55 80 50, ((60 : ℤ) : ℝ) ≤ w.1 → r.1 ≤ w.1) ∧
            s = r.2) ∧
      ((∀ q ∈ buildLevels 55 80 50, q.1 < ((60 : ℤ) : ℝ)) → s = 100) :=
  fanCurve_lookup_spec 55 80 50 60 (by decide) (by decide) (by decide)
    (by decide)

/-- C5: for every valid configuration the 512-point curve is strictly
increasing in both axes, the lookup at the activation threshold is exactly
the minimum fan speed, and the lookup at the maximum temperature threshold
is exactly 100. -/
theorem fanCurve_strict_mono_endpoints (a m f : ℤ) (ha : 0 < a) (ham : a < m)
    (hf : 0 < f) (hf1 : f < 100) :
    (buildLevels a m f).Pairwise (fun x y => x.1 < y.1 ∧ x.2 < y.2) ∧
    lookupSpeed (buildLevels a m f) a = some ((f : ℝ)) ∧
    lookupSpeed (buildLevels a m f) m = some ((100 : ℝ)) := by
  have hfr : (f : ℝ) ≠ 0 := ne_of_gt (by exact_mod_cast hf)
  rw [buildLevels_eq_of_mono a m f ha ham]
  refine ⟨levelsList_pairwise a m f ha ham hf hf1, ?_, ?_⟩
  · rw [lookupSpeed_levelsList_activate a m f ha, fanLevels_zero]
  · rw [lookupSpeed_levelsList_max a m f ha ham, fanLevels_last f hfr]

/-- C5 witness: the defaults (activate 55, max 80, min fan 50). -/
theorem fanCurve_strict_mono_endpoints_witness :
    (buildLevels 55 80 50).Pairwise (fun x y => x.1 < y.1 ∧ x.2 < y.2) ∧
    lookupSpeed (buildLevels 55 80 50) 55 = some ((50 : ℝ)) ∧
    lookupSpeed (buildLevels 55 80 50) 80 = some ((100 : ℝ)) := by
  have h := fanCurve_strict_mono_endpoints 55 80 50 (by decide) (by decide)
    (by decide) (by decide)
  simpa using h

/-- C2 counterexample: with activate_threshold 90 above max_temp_threshold
80 the construction still succeeds -- a full 512-entry table is built and a
decision tick runs normally afterwards; there is no ConfigurationError. -/
theorem invalid_range_still_builds_curve :
    (buildLevels 90 80 50).length = 512 ∧
    runTicks (buildLevels 90 80 50) defaultParams [] initialEngineState
      [⟨false, [], 0, true, true, true⟩] = ([], Except.ok initialEngineState) := by
  constructor
  · rw [buildLevels_eq_of_anti 90 80 50 (by decide) (by decide)]
    exact levelsList_length 90 80 50
  · rfl

/-- C2 (amended): the code performs no threshold validation at all.  For an
inverted range (max_temp_threshold < activate_threshold, all positive,
min fan below 100) the 512-point table is still produced -- with a strictly
decreasing temperature axis -- and the decision loop still runs its ticks;
no ConfigurationError exists anywhere in the program. -/
theorem no_configuration_error_on_inverted_range (a m f : ℤ) (p : Params)
    (inp : TickInput) (hm : 0 < m) (hma : m < a) (hf : 0 < f) (hf1 : f < 100)
    (hb : inp.batch = []) (hsd : inp.shutdown = false) :
    (buildLevels a m f).length = 512 ∧
    (buildLevels a m f).Pairwise (fun x y => y.1 < x.1) ∧
    ∃ st calls, runTicks (buildLevels a m f) p [] initialEngineState [inp] =
      (calls, Except.ok st) := by
  have hmr : 0 < (m : ℝ) := by exact_mod_cast hm
  have hmar : (m : ℝ) < (a : ℝ) := by exact_mod_cast hma
  rw [buildLevels_eq_of_anti a m f hm hma]
  refine ⟨levelsList_length a m f, ?_, ?_⟩
  · unfold levelsList
    refine List.Pairwise.map _ ?_ (List.pairwise_lt_range 512)
    intro i j hij
    exact tempLevels_strictAnti a m hmr hmar hij
  · have h1 : engineTick (levelsList a m f) p [] initialEngineState inp =
        Except.ok (⟨zeroAgg,
          (controlStep (levelsList a m f) p inp.now zeroAgg ⟨none, none⟩
            inp.toggleOnOk inp.toggleOffOk inp.setOk).ctl,
          (controlStep (levelsList a m f) p inp.now zeroAgg ⟨none, none⟩
            inp.toggleOnOk inp.toggleOffOk inp.setOk).stopRequested⟩,
         (controlStep (levelsList a m f) p inp.now zeroAgg ⟨none, none⟩
            inp.toggleOnOk inp.toggleOffOk inp.setOk).calls) := by
      unfold engineTick
      rw [hb]
      rfl
    refine ⟨⟨zeroAgg,
      (controlStep (levelsList a m f) p inp.now zeroAgg ⟨none, none⟩
        inp.toggleOnOk inp.toggleOffOk inp.setOk).ctl,
      (controlStep (levelsList a m f) p inp.now zeroAgg ⟨none, none⟩
        inp.toggleOnOk inp.toggleOffOk inp.setOk).stopRequested⟩,
      (controlStep (levelsList a m f) p inp.now zeroAgg ⟨none, none⟩
        inp.toggleOnOk inp.toggleOffOk inp.setOk).calls ++ [], ?_⟩
    simp only [runTicks]
    rw [hsd, h1]
    rfl

/-- C2 witness: the concrete inverted configuration (90, 80, 50) with one
empty-batch tick. -/
theorem no_configuration_error_witness :
    (buildLevels 90 80 50).length = 512 ∧
    (buildLevels 90 80 50).Pairwise (fun x y => y.1 < x.1) ∧
    ∃ st calls, runTicks (buildLevels 90 80 50) defaultParams []
      initialEngineState [⟨false, [], 5, true, true, true⟩] =
        (calls, Except.ok st) :=
  no_configuration_error_on_inverted_range 90 80 50 defaultParams
    ⟨false, [], 5, true, true, true⟩ (by decide) (by decide) (by decide)
    (by decide) rfl rfl
